import Mathlib

/-!
Verification of the TinyClaw authentication broker against its
natural-language specification.

The embedding follows the authoritative revision of the auth routes
(src/src/lib/config.ts, lines 151-377 of the bundled file, together with
the settings store at lines 17-81).  JavaScript objects are modelled as
association lists of string keys, JSON values as the inductive `JVal`,
and the file system as an association list from paths to file contents.
JavaScript truthiness, optional chaining, property deletion and
strict-mode assignment failures are modelled explicitly.  The directory
part of the settings path (environment/homedir resolution) is out of
scope; the store is modelled relative to the resolved settings file.
-/

namespace Tinyclaw

/-- JSON value, the shape of the persisted settings document.  Numbers are
modelled as integers: the broker only ever stores and compares integral
epoch-millisecond values, and no claim involves fractional numbers. -/
inductive JVal where
  | jnull
  | jbool (b : Bool)
  | jnum (n : Int)
  | jstr (s : String)
  | jarr (xs : List JVal)
  | jobj (fields : List (String × JVal))

/-- Association-list lookup: the value stored under a key in a JS object
(first binding wins, matching unique-key objects produced by JSON.parse). -/
def alookup {α : Type} : List (String × α) → String → Option α
  | [], _ => none
  | (k, v) :: rest, key => if k = key then some v else alookup rest key

/-- Association-list update, the model of a JS property assignment:
replaces the binding in place if present, appends otherwise. -/
def aset {α : Type} : List (String × α) → String → α → List (String × α)
  | [], key, v => [(key, v)]
  | (k, w) :: rest, key, v =>
    if k = key then (key, v) :: rest else (k, w) :: aset rest key v

/-- Association-list removal, the model of the JS delete operator:
removes every binding of the key. -/
def adel {α : Type} : List (String × α) → String → List (String × α)
  | [], _ => []
  | (k, w) :: rest, key =>
    if k = key then adel rest key else (k, w) :: adel rest key

/-- JavaScript truthiness of a value. -/
def truthy : JVal → Bool
  | .jnull => false
  | .jbool b => b
  | .jnum n => decide (n ≠ 0)
  | .jstr s => decide (s ≠ "")
  | .jarr _ => true
  | .jobj _ => true

/-- JavaScript truthiness of a possibly-undefined value. -/
def truthyOpt : Option JVal → Bool
  | some v => truthy v
  | none => false

/-- Property read on a value: a lookup on objects, undefined on
primitives and arrays (no claim touches array indices or string length). -/
def getProp : JVal → String → Option JVal
  | .jobj fs, k => alookup fs k
  | _, _ => none

/-- Optional-chaining property read on a possibly-undefined value. -/
def getPropO : Option JVal → String → Option JVal
  | some v, k => getProp v k
  | none, _ => none

/-- File system state: contents of files by path. -/
abbrev Fs := List (String × String)

/-- Model of fs.readFileSync: contents if the path is readable. -/
def fsRead (fs : Fs) (p : String) : Option String := alookup fs p

/-- Model of fs.writeFileSync and fs.copyFileSync target. -/
def fsWrite (fs : Fs) (p : String) (content : String) : Fs := aset fs p content

/-- Resolved path of the persisted settings document (SETTINGS_FILE in
src/src/lib/config.ts). -/
def settingsFile : String := "settings.json"

/-- Severity of an emitted diagnostic, from the bracketed prefix the
store writes on each console.error line. -/
inductive LogLevel where
  | warn
  | error
deriving DecidableEq

-- ── JSON text layer ──────────────────────────────────────────────────

/-- Whitespace skipping of the JSON grammar. -/
def skipWs : List Char → List Char
  | c :: cs =>
    if c = ' ' ∨ c = '\t' ∨ c = '\n' ∨ c = '\r' then skipWs cs else c :: cs
  | [] => []

/-- Decoding of a JSON string escape character (the escapes the settings
files at hand can contain; unicode escapes are outside the subset). -/
def escChar (c : Char) : Option Char :=
  if c = 'n' then some '\n'
  else if c = 't' then some '\t'
  else if c = 'r' then some '\r'
  else if c = 'b' then some (Char.ofNat 8)
  else if c = 'f' then some (Char.ofNat 12)
  else if c = '"' ∨ c = '\\' ∨ c = '/' then some c
  else none

/-- Body of a JSON string after the opening quote: the decoded
characters and the remaining input after the closing quote. -/
def parseStringBody : List Char → Option (List Char × List Char)
  | [] => none
  | '"' :: rest => some ([], rest)
  | '\\' :: [] => none
  | '\\' :: e :: rest =>
    match escChar e, parseStringBody rest with
    | some c, some (s, r) => some (c :: s, r)
    | _, _ => none
  | c :: rest =>
    match parseStringBody rest with
    | some (s, r) => some (c :: s, r)
    | none => none

/-- Longest leading run of decimal digits. -/
def takeDigits : List Char → (List Char × List Char)
  | [] => ([], [])
  | c :: rest =>
    if c.isDigit then
      let p := takeDigits rest
      (c :: p.1, p.2)
    else ([], c :: rest)

/-- Numeric value of a digit run. -/
def digitsToNat (ds : List Char) : Nat :=
  ds.foldl (fun n c => n * 10 + (c.toNat - 48)) 0

/-- JSON natural-number literal (leading zeros rejected, as JSON.parse
does). -/
def parseNatCore : List Char → Option (Nat × List Char)
  | [] => none
  | '0' :: rest =>
    match rest with
    | d :: _ => if d.isDigit then none else some (0, rest)
    | [] => some (0, [])
  | c :: rest =>
    if c.isDigit then
      let p := takeDigits (c :: rest)
      some (digitsToNat p.1, p.2)
    else none

/-- JSON integer literal with optional sign.  Fractional and exponent
forms are outside the modelled subset. -/
def parseNumberFrom (cs : List Char) : Option (JVal × List Char) :=
  match cs with
  | '-' :: rest => (parseNatCore rest).map (fun p => (.jnum (-(p.1 : Int)), p.2))
  | _ => (parseNatCore cs).map (fun p => (.jnum (p.1 : Int), p.2))

mutual

/-- Recursive-descent JSON value parser (fuel-indexed for structural
termination; `parseJson` supplies ample fuel). -/
def parseVal : Nat → List Char → Option (JVal × List Char)
  | 0, _ => none
  | fuel + 1, cs =>
    match skipWs cs with
    | 'n' :: 'u' :: 'l' :: 'l' :: rest => some (.jnull, rest)
    | 't' :: 'r' :: 'u' :: 'e' :: rest => some (.jbool true, rest)
    | 'f' :: 'a' :: 'l' :: 's' :: 'e' :: rest => some (.jbool false, rest)
    | '"' :: rest => (parseStringBody rest).map (fun p => (.jstr (String.mk p.1), p.2))
    | '[' :: rest =>
      match skipWs rest with
      | ']' :: r2 => some (.jarr [], r2)
      | r2 => (parseArrItems fuel r2).map (fun p => (.jarr p.1, p.2))
    | '\x7b' :: rest =>
      match skipWs rest with
      | '\x7d' :: r2 => some (.jobj [], r2)
      | r2 =>
        (parseObjItems fuel r2).map
          (fun p => (.jobj (p.1.foldl (fun acc kv => aset acc kv.1 kv.2) []), p.2))
    | rest => parseNumberFrom rest

/-- Comma-separated array items up to the closing bracket. -/
def parseArrItems : Nat → List Char → Option (List JVal × List Char)
  | 0, _ => none
  | fuel + 1, cs =>
    match parseVal fuel cs with
    | none => none
    | some (v, r) =>
      match skipWs r with
      | ',' :: r2 => (parseArrItems fuel r2).map (fun p => (v :: p.1, p.2))
      | ']' :: r2 => some ([v], r2)
      | _ => none

/-- Comma-separated object members up to the closing brace.  A comma that
is not followed by another member is a parse error, exactly as in
JSON.parse: this is what makes a trailing comma malformed. -/
def parseObjItems : Nat → List Char → Option (List (String × JVal) × List Char)
  | 0, _ => none
  | fuel + 1, cs =>
    match skipWs cs with
    | '"' :: rest =>
      match parseStringBody rest with
      | none => none
      | some (kcs, r1) =>
        match skipWs r1 with
        | ':' :: r2 =>
          match parseVal fuel r2 with
          | none => none
          | some (v, r3) =>
            match skipWs r3 with
            | ',' :: r4 => (parseObjItems fuel r4).map (fun p => ((String.mk kcs, v) :: p.1, p.2))
            | '\x7d' :: r4 => some ([(String.mk kcs, v)], r4)
            | _ => none
        | _ => none
    | _ => none

end

/-- Model of JSON.parse on the settings subset: a complete value with
only trailing whitespace, rejecting anything else. -/
def parseJson (text : String) : Option JVal :=
  match parseVal (text.length + 2) text.data with
  | some (v, rest) => if skipWs rest = [] then some v else none
  | none => none

/-- Escaping of one character inside a serialized JSON string. -/
def escOut (c : Char) : List Char :=
  if c = '"' then ['\\', '"']
  else if c = '\\' then ['\\', '\\']
  else if c = '\n' then ['\\', 'n']
  else if c = '\t' then ['\\', 't']
  else if c = '\r' then ['\\', 'r']
  else [c]

/-- Serialized form of a JSON string literal. -/
def quoteStr (s : String) : String :=
  "\"" ++ String.mk (s.data.foldr (fun c acc => escOut c ++ acc) []) ++ "\""

mutual

/-- Model of JSON.stringify on the document (the source pretty-prints
with two-space indentation; inter-token whitespace is immaterial to
every claim and is not reproduced). -/
def stringify : JVal → String
  | .jnull => "null"
  | .jbool true => "true"
  | .jbool false => "false"
  | .jnum n => toString n
  | .jstr s => quoteStr s
  | .jarr xs => "[" ++ stringifyArr xs ++ "]"
  | .jobj fs => "\x7b" ++ stringifyObj fs ++ "\x7d"

/-- Serialized array items. -/
def stringifyArr : List JVal → String
  | [] => ""
  | [x] => stringify x
  | x :: y :: xs => stringify x ++ "," ++ stringifyArr (y :: xs)

/-- Serialized object members. -/
def stringifyObj : List (String × JVal) → String
  | [] => ""
  | [(k, v)] => quoteStr k ++ ":" ++ stringify v
  | (k, v) :: f :: fs => quoteStr k ++ ":" ++ stringify v ++ "," ++ stringifyObj (f :: fs)

end

/-- Closing bracket or brace as next significant character. -/
def closesNext (cs : List Char) : Bool :=
  match skipWs cs with
  | '\x7d' :: _ => true
  | ']' :: _ => true
  | _ => false

/-- String-aware removal of commas that directly precede a closing
bracket or brace. -/
def stripTC : Bool → List Char → List Char
  | _, [] => []
  | false, ',' :: rest => if closesNext rest then stripTC false rest else ',' :: stripTC false rest
  | false, '"' :: rest => '"' :: stripTC true rest
  | false, c :: rest => c :: stripTC false rest
  | true, '\\' :: c :: rest => '\\' :: c :: stripTC true rest
  | true, '"' :: rest => '"' :: stripTC false rest
  | true, c :: rest => c :: stripTC true rest

/-- Modelled from the spec: the external `jsonrepair` dependency (not part
of this repository) performs a best-effort repair of near-valid input;
the trailing-comma slip named by the spec is modelled, and repair fails
(the library throws) when no parseable text results. -/
def jsonrepairModel (text : String) : Option String :=
  let t := String.mk (stripTC false text.data)
  if (parseJson t).isSome then some t else none

-- ── Settings store (src/src/lib/config.ts) ───────────────────────────

/-- Property assignment of models.provider, used by the auto-detection
block.  The guard that reaches it guarantees the document and its models
member are objects (a primitive has no truthy property), so the
fall-through arms are unreachable there. -/
def setModelsProvider (s : JVal) (p : String) : JVal :=
  match s with
  | .jobj sf =>
    match alookup sf "models" with
    | some (.jobj mf) => .jobj (aset sf "models" (.jobj (aset mf "provider" (.jstr p))))
    | _ => s
  | _ => s

/-- Provider auto-detection block of getSettings (config.ts lines 39-50):
when models.provider is not truthy, it is set from the first truthy
provider sub-record in the order openai, opencode, anthropic. -/
def autodetect (s : JVal) : JVal :=
  if truthyOpt (getPropO (getProp s "models") "provider") then s
  else if truthyOpt (getPropO (getProp s "models") "openai") then setModelsProvider s "openai"
  else if truthyOpt (getPropO (getProp s "models") "opencode") then setModelsProvider s "opencode"
  else if truthyOpt (getPropO (getProp s "models") "anthropic") then setModelsProvider s "anthropic"
  else s

/-- Settings store load (getSettings, config.ts lines 17-56): read the
file, parse it, on a parse failure attempt repair (backing up the
original bytes to the fixed .bak sibling and overwriting the canonical
file with the re-serialized repaired document), fall back to an empty
document when the file is unreadable or repair fails, and finally apply
provider auto-detection to the in-memory result.  The returned list
records the severities of the diagnostics emitted on the way. -/
def getSettings (fs : Fs) : JVal × Fs × List LogLevel :=
  match fsRead fs settingsFile with
  | none => (.jobj [], fs, [])
  | some text =>
    match parseJson text with
    | some s => (autodetect s, fs, [])
    | none =>
      match (jsonrepairModel text).bind parseJson with
      | some s =>
        let fs₁ := fsWrite fs (settingsFile ++ ".bak") text
        let fs₂ := fsWrite fs₁ settingsFile (stringify s ++ "\n")
        (autodetect s, fs₂, [.warn, .warn])
      | none => (.jobj [], fs, [.warn, .error])

/-- Settings store mutation (mutateSettings, config.ts lines 77-81):
re-read the document, apply the transform, serialize and write back.
The transform may fail (strict-mode property assignment on a primitive
throws); the Boolean records whether it did, in which case nothing is
written and the exception propagates to the caller. -/
def mutateSettings (f : JVal → Except Unit JVal) (fs : Fs) : Fs × Bool :=
  let loaded := getSettings fs
  match f loaded.1 with
  | .ok s₁ => (fsWrite loaded.2.1 settingsFile (stringify s₁ ++ "\n"), false)
  | .error _ => (loaded.2.1, true)

-- ── Auth routes (src/src/lib/config.ts lines 151-377) ────────────────

/-- Connection status answered to the dashboard: connected flag and the
method value (none models the JSON null). -/
structure AuthStatus where
  connected : Bool
  method : Option JVal

/-- Status derivation of the status route for the provider sub-record
stored under `key` in the models section (config.ts lines 224-230 and
355-361): connected iff oauth_token or apiKey is truthy; method is the
stored auth_method if truthy, else "api_key" when an apiKey is present,
else null. -/
def statusOf (s : JVal) (key : String) : AuthStatus :=
  let sub := getPropO (getProp s "models") key
  { connected := truthyOpt (getPropO sub "oauth_token") || truthyOpt (getPropO sub "apiKey")
    method :=
      if truthyOpt (getPropO sub "auth_method") then getPropO sub "auth_method"
      else if truthyOpt (getPropO sub "apiKey") then some (.jstr "api_key")
      else none }

/-- Full status route: load the document through the settings store and
derive the status from it. -/
def statusRoute (key : String) (fs : Fs) : AuthStatus × Fs :=
  let loaded := getSettings fs
  (statusOf loaded.1 key, loaded.2.1)

/-- Removal of the five credential fields performed by the disconnect
transform (config.ts lines 237-241 and 368-372). -/
def deleteAuthFields (pf : List (String × JVal)) : List (String × JVal) :=
  adel (adel (adel (adel (adel pf "oauth_token") "oauth_refresh_token")
    "oauth_expires_at") "auth_method") "apiKey"

/-- Disconnect transform (config.ts lines 234-243 and 365-374): when the
provider sub-record is truthy, delete oauth_token, oauth_refresh_token,
oauth_expires_at, auth_method and apiKey from it.  On a truthy
non-object sub-record every delete is a no-op, and on a falsy one the
guard skips the block, so the document only changes when the sub-record
is an object. -/
def disconnectTransform (key : String) (s : JVal) : JVal :=
  if truthyOpt (getPropO (getProp s "models") key) then
    match s with
    | .jobj sf =>
      match alookup sf "models" with
      | some (.jobj mf) =>
        match alookup mf key with
        | some (.jobj pf) =>
          .jobj (aset sf "models" (.jobj (aset mf key (.jobj (deleteAuthFields pf)))))
        | _ => s
      | _ => s
    | _ => s
  else s

/-- Disconnect route: mutate the stored document with the disconnect
transform (the transform never throws, so the route always writes). -/
def disconnectRoute (key : String) (fs : Fs) : Fs × Bool :=
  mutateSettings (fun s => .ok (disconnectTransform key s)) fs

/-- Value stored for oauth_refresh_token: the reported refresh token,
or null when the provider sent none (the ?? null of the source). -/
def refreshVal (rt : Option String) : JVal :=
  match rt with
  | some r => .jstr r
  | none => .jnull

/-- Value stored for oauth_expires_at: now plus the reported lifetime in
milliseconds when expires_in is truthy, null otherwise (the source
guards with JavaScript truthiness, under which 0 is falsy). -/
def expiresVal (now : Int) (ei : Option Int) : JVal :=
  match ei with
  | some n => if n ≠ 0 then .jnum (now + n * 1000) else .jnull
  | none => .jnull

/-- Post-exchange persistence transform (config.ts lines 193-200 and
324-331): ensure the models section and the provider sub-record exist
(falsy values are replaced by fresh empty objects), then write
oauth_token, oauth_refresh_token (null when the provider sent none),
oauth_expires_at (now plus expires_in seconds in milliseconds when
expires_in is truthy, null otherwise — note 0 is falsy) and set
auth_method to "oauth".  When the document or an intermediate member is
a truthy primitive, the strict-mode property assignment throws, which
the error result models. -/
def oauthSaveTransform (key : String) (now : Int) (tok : String)
    (rt : Option String) (ei : Option Int) (s : JVal) : Except Unit JVal :=
  match s with
  | .jobj sf =>
    let models :=
      match alookup sf "models" with
      | some m => if truthy m then m else .jobj []
      | none => .jobj []
    match models with
    | .jobj mf =>
      let sub :=
        match alookup mf key with
        | some p => if truthy p then p else .jobj []
        | none => .jobj []
      match sub with
      | .jobj pf =>
        let pf₁ := aset pf "oauth_token" (.jstr tok)
        let pf₂ := aset pf₁ "oauth_refresh_token" (refreshVal rt)
        let pf₃ := aset pf₂ "oauth_expires_at" (expiresVal now ei)
        let pf₄ := aset pf₃ "auth_method" (.jstr "oauth")
        .ok (.jobj (aset sf "models" (.jobj (aset mf key (.jobj pf₄)))))
      | _ => .error ()
    | _ => .error ()
  | _ => .error ()

-- ── PKCE session registry and callback (config.ts lines 103-116, 151-221) ──

/-- PKCE registry entry stored under the state token. -/
structure PkceEntry where
  verifier : String
  provider : String
  expiresAt : Int
deriving DecidableEq

/-- In-memory PKCE session registry keyed by the state token. -/
abbrev PkceStore := List (String × PkceEntry)

/-- Outcome of the single token-endpoint request: success payload, a
non-success HTTP response with its raw body, or a transport failure
(fetch rejection). -/
inductive ExchangeResult where
  | ok (access_token : String) (refresh_token : Option String) (expires_in : Option Int)
  | httpError (body : String)
  | netError
deriving DecidableEq

/-- Terminal page rendered by the callback handler. -/
inductive CallbackOutcome where
  | errorPage (e : String)
  | missingPage
  | invalidSession
  | exchangeFailed (body : String)
  | connected
  | exceptionPage
deriving DecidableEq

/-- Result of one callback invocation: the rendered outcome, the
registry and file system afterwards, and how many token-exchange
requests were issued. -/
structure CallbackResult where
  outcome : CallbackOutcome
  store : PkceStore
  fs : Fs
  exchangeCount : Nat

/-- JavaScript truthiness of an optional query parameter (absent and
empty both falsy). -/
def strTruthy : Option String → Bool
  | some s => decide (s ≠ "")
  | none => false

/-- Callback handler (config.ts lines 151-221 and 282-352), parameterized
by the provider tag checked against the registry entry (claude/openai),
the models key the credentials are saved under (anthropic/openai), the
current time and the token-endpoint behaviour.  A provider-supplied
error renders the failure page untouched by the registry; a missing or
empty code or state renders the missing page; a state that is absent,
bound to another provider, or past expiry renders the invalid-session
page; otherwise the entry is deleted and the single exchange request is
issued, after which success persists the credentials and any failure
renders its page with nothing written. -/
def callback (tag modelsKey : String) (now : Int)
    (exchange : String → String → ExchangeResult)
    (code? state? error? : Option String)
    (store : PkceStore) (fs : Fs) : CallbackResult :=
  if strTruthy error? then
    ⟨.errorPage (error?.getD ""), store, fs, 0⟩
  else if !(strTruthy code?) || !(strTruthy state?) then
    ⟨.missingPage, store, fs, 0⟩
  else
    let code := code?.getD ""
    let state := state?.getD ""
    match alookup store state with
    | none => ⟨.invalidSession, store, fs, 0⟩
    | some entry =>
      if entry.provider ≠ tag ∨ entry.expiresAt < now then
        ⟨.invalidSession, store, fs, 0⟩
      else
        let store₁ := adel store state
        match exchange code entry.verifier with
        | .netError => ⟨.exceptionPage, store₁, fs, 1⟩
        | .httpError body => ⟨.exchangeFailed body, store₁, fs, 1⟩
        | .ok tok rt ei =>
          match mutateSettings (fun s => oauthSaveTransform modelsKey now tok rt ei s) fs with
          | (fs₁, false) => ⟨.connected, store₁, fs₁, 1⟩
          | (fs₁, true) => ⟨.exceptionPage, store₁, fs₁, 1⟩

/-- Whether the persisted settings text parses as-is (or the file is
unreadable): the condition under which loading performs no write. -/
def parsesOrMissing (fs : Fs) : Bool :=
  match fsRead fs settingsFile with
  | none => true
  | some t => (parseJson t).isSome

-- ── Association-list lemmas ──────────────────────────────────────────

theorem alookup_aset_self {α : Type} (l : List (String × α)) (k : String) (v : α) :
    alookup (aset l k v) k = some v := by
  induction l with
  | nil => simp [aset, alookup]
  | cons hd tl ih =>
    obtain ⟨k₀, w⟩ := hd
    by_cases h : k₀ = k
    · subst h; simp [aset, alookup]
    · simp [aset, alookup, h, ih]

theorem alookup_aset_ne {α : Type} (l : List (String × α)) (k k' : String) (v : α)
    (h : k' ≠ k) : alookup (aset l k v) k' = alookup l k' := by
  induction l with
  | nil => simp [aset, alookup, Ne.symm h]
  | cons hd tl ih =>
    obtain ⟨k₀, w⟩ := hd
    by_cases h₀ : k₀ = k
    · subst h₀; simp [aset, alookup, Ne.symm h]
    · simp [aset, alookup, h₀, ih]

theorem alookup_adel_self {α : Type} (l : List (String × α)) (k : String) :
    alookup (adel l k) k = none := by
  induction l with
  | nil => simp [adel, alookup]
  | cons hd tl ih =>
    obtain ⟨k₀, w⟩ := hd
    by_cases h : k₀ = k
    · subst h; simp [adel, ih]
    · simp [adel, alookup, h, ih]

theorem alookup_adel_ne {α : Type} (l : List (String × α)) (k k' : String)
    (h : k' ≠ k) : alookup (adel l k) k' = alookup l k' := by
  induction l with
  | nil => simp [adel]
  | cons hd tl ih =>
    obtain ⟨k₀, w⟩ := hd
    by_cases h₀ : k₀ = k
    · subst h₀; simp [adel, alookup, ih, Ne.symm h]
    · simp [adel, alookup, h₀, ih]

theorem fsRead_fsWrite_self (fs : Fs) (p c : String) :
    fsRead (fsWrite fs p c) p = some c := alookup_aset_self fs p c

theorem fsRead_fsWrite_ne (fs : Fs) (p q c : String) (h : q ≠ p) :
    fsRead (fsWrite fs p c) q = fsRead fs q := alookup_aset_ne fs p q c h

theorem alookup_deleteAuthFields (pf : List (String × JVal)) (f : String)
    (hf : f = "oauth_token" ∨ f = "oauth_refresh_token" ∨ f = "oauth_expires_at" ∨
      f = "auth_method" ∨ f = "apiKey") :
    alookup (deleteAuthFields pf) f = none := by
  obtain rfl | rfl | rfl | rfl | rfl := hf <;>
    simp [deleteAuthFields, alookup_adel_self, alookup_adel_ne]

-- ── Structural inversion helpers ─────────────────────────────────────

theorem truthy_sub_inv (s : JVal) (k₁ k₂ : String)
    (h : truthyOpt (getPropO (getProp s k₁) k₂) = true) :
    ∃ sf mf p, s = .jobj sf ∧ alookup sf k₁ = some (.jobj mf) ∧
      alookup mf k₂ = some p ∧ truthy p = true := by
  cases s with
  | jobj sf =>
    cases hm : alookup sf k₁ with
    | none => simp [getProp, getPropO, truthyOpt, hm] at h
    | some m =>
      cases m with
      | jobj mf =>
        cases hp : alookup mf k₂ with
        | none => simp [getProp, getPropO, truthyOpt, hm, hp] at h
        | some p =>
          exact ⟨sf, mf, p, rfl, hm, hp,
            by simpa [getProp, getPropO, truthyOpt, hm, hp] using h⟩
      | jnull => simp [getProp, getPropO, truthyOpt, hm] at h
      | jbool b => simp [getProp, getPropO, truthyOpt, hm] at h
      | jnum n => simp [getProp, getPropO, truthyOpt, hm] at h
      | jstr t => simp [getProp, getPropO, truthyOpt, hm] at h
      | jarr xs => simp [getProp, getPropO, truthyOpt, hm] at h
  | jnull => simp [getProp, getPropO, truthyOpt] at h
  | jbool b => simp [getProp, getPropO, truthyOpt] at h
  | jnum n => simp [getProp, getPropO, truthyOpt] at h
  | jstr t => simp [getProp, getPropO, truthyOpt] at h
  | jarr xs => simp [getProp, getPropO, truthyOpt] at h

theorem getPropO_of_not_jobj (v : JVal) (f : String) (h : ∀ pf, v ≠ .jobj pf) :
    getPropO (some v) f = none := by
  cases v with
  | jobj pf => exact absurd rfl (h pf)
  | jnull => rfl
  | jbool b => rfl
  | jnum n => rfl
  | jstr t => rfl
  | jarr xs => rfl

/-- Behaviour of the disconnect transform in the live case: document,
models member and provider sub-record are all objects. -/
theorem disconnectTransform_eq_main (key : String) (sf mf pf : List (String × JVal))
    (hm : alookup sf "models" = some (.jobj mf)) (hp : alookup mf key = some (.jobj pf)) :
    disconnectTransform key (.jobj sf) =
      .jobj (aset sf "models" (.jobj (aset mf key (.jobj (deleteAuthFields pf))))) := by
  unfold disconnectTransform
  rw [if_pos (by simp [getProp, getPropO, truthyOpt, truthy, hm, hp])]
  simp [hm, hp]

/-- Behaviour of the disconnect transform in every other case: the
document is unchanged. -/
theorem disconnectTransform_eq_id (key : String) (s : JVal)
    (h : ∀ pf, getPropO (getProp s "models") key ≠ some (.jobj pf)) :
    disconnectTransform key s = s := by
  unfold disconnectTransform
  by_cases htr : truthyOpt (getPropO (getProp s "models") key) = true
  · rw [if_pos htr]
    obtain ⟨sf, mf, p, rfl, hm, hp, hptr⟩ := truthy_sub_inv _ _ _ htr
    have hnp : ∀ pf, p ≠ .jobj pf := by
      intro pf hcon
      exact h pf (by simp [getProp, getPropO, hm, hp, hcon])
    simp only [hm, hp]
    cases p with
    | jobj pf => exact absurd rfl (hnp pf)
    | jnull => rfl
    | jbool b => rfl
    | jnum n => rfl
    | jstr t => rfl
    | jarr xs => rfl
  · rw [if_neg htr]

/-- Sub-record reads after a disconnect: each of the five credential
fields is absent whatever the prior document was. -/
theorem disconnect_clears (key f : String) (s : JVal)
    (hf : f = "oauth_token" ∨ f = "oauth_refresh_token" ∨ f = "oauth_expires_at" ∨
      f = "auth_method" ∨ f = "apiKey") :
    getPropO (getPropO (getProp (disconnectTransform key s) "models") key) f = none := by
  by_cases hmain : ∃ sf mf pf, s = JVal.jobj sf ∧ alookup sf "models" = some (.jobj mf) ∧
      alookup mf key = some (.jobj pf)
  · obtain ⟨sf, mf, pf, rfl, hm, hp⟩ := hmain
    rw [disconnectTransform_eq_main key sf mf pf hm hp]
    simp [getProp, getPropO, alookup_aset_self, alookup_deleteAuthFields _ _ hf]
  · have hid : disconnectTransform key s = s := by
      apply disconnectTransform_eq_id
      intro pf hcon
      obtain ⟨sf₂, mf₂, p₂, rfl, hm₂, hp₂, _⟩ :=
        truthy_sub_inv s "models" key (by simp [hcon, truthyOpt, truthy])
      have : p₂ = .jobj pf := by
        have := hcon
        simp [getProp, getPropO, hm₂, hp₂] at this
        exact this
      exact hmain ⟨sf₂, mf₂, pf, rfl, hm₂, this ▸ hp₂⟩
    rw [hid]
    cases hsub : getPropO (getProp s "models") key with
    | none => rfl
    | some v =>
      refine getPropO_of_not_jobj v f ?_
      intro pf hcon
      subst hcon
      exact hmain (by
        obtain ⟨sf₂, mf₂, p₂, rfl, hm₂, hp₂, _⟩ :=
          truthy_sub_inv s "models" key (by simp [hsub, truthyOpt, truthy])
        have hpv : p₂ = .jobj pf := by
          have := hsub
          simp [getProp, getPropO, hm₂, hp₂] at this
          exact this
        exact ⟨sf₂, mf₂, pf, rfl, hm₂, hpv ▸ hp₂⟩)

/-- Status derivation when all three relevant fields are absent. -/
theorem statusOf_of_none (s : JVal) (key : String)
    (h₁ : getPropO (getPropO (getProp s "models") key) "oauth_token" = none)
    (h₂ : getPropO (getPropO (getProp s "models") key) "auth_method" = none)
    (h₃ : getPropO (getPropO (getProp s "models") key) "apiKey" = none) :
    (statusOf s key).connected = false ∧ (statusOf s key).method = none := by
  simp [statusOf, h₁, h₂, h₃, truthyOpt]

-- ── Claims ───────────────────────────────────────────────────────────

/-- C1: for every provider sub-record key and every prior settings
document, the disconnect transform removes oauth_token,
oauth_refresh_token, oauth_expires_at, auth_method and apiKey from that
provider's sub-record, and the status derived from the resulting
document is connected = false with method = null. -/
theorem c1_disconnect_unauthenticates (key : String) (s : JVal) :
    getPropO (getPropO (getProp (disconnectTransform key s) "models") key) "oauth_token" = none ∧
    getPropO (getPropO (getProp (disconnectTransform key s) "models") key) "oauth_refresh_token" = none ∧
    getPropO (getPropO (getProp (disconnectTransform key s) "models") key) "oauth_expires_at" = none ∧
    getPropO (getPropO (getProp (disconnectTransform key s) "models") key) "auth_method" = none ∧
    getPropO (getPropO (getProp (disconnectTransform key s) "models") key) "apiKey" = none ∧
    (statusOf (disconnectTransform key s) key).connected = false ∧
    (statusOf (disconnectTransform key s) key).method = none := by
  have h₁ := disconnect_clears key "oauth_token" s (by simp)
  have h₂ := disconnect_clears key "oauth_refresh_token" s (by simp)
  have h₃ := disconnect_clears key "oauth_expires_at" s (by simp)
  have h₄ := disconnect_clears key "auth_method" s (by simp)
  have h₅ := disconnect_clears key "apiKey" s (by simp)
  obtain ⟨hc, hm⟩ := statusOf_of_none (disconnectTransform key s) key h₁ h₄ h₅
  exact ⟨h₁, h₂, h₃, h₄, h₅, hc, hm⟩

/-- C2 counterexample: on a persisted settings text that is malformed
but repairable (a trailing comma after the last object field), the
status route does change the settings file — loading auto-repairs and
rewrites it — refuting the claim that status leaves every persisted
settings file unchanged. -/
theorem c2_counterexample :
    (statusRoute "anthropic" [(settingsFile, "\x7b\"a\":1,\x7d")]).2 ≠
      [(settingsFile, "\x7b\"a\":1,\x7d")] := by decide

/-- C2 (amended): for every provider key and every persisted state whose
settings text parses as-is (or whose file is unreadable), the status
operation leaves the file system unchanged; the derivation itself is a
pure function of the loaded document. -/
theorem c2_status_pure (key : String) (fs : Fs)
    (h : parsesOrMissing fs = true) : (statusRoute key fs).2 = fs := by
  unfold parsesOrMissing at h
  cases hr : fsRead fs settingsFile with
  | none => simp [statusRoute, getSettings, hr]
  | some t =>
    rw [hr] at h
    obtain ⟨s, hp⟩ := Option.isSome_iff_exists.mp h
    simp [statusRoute, getSettings, hr, hp]

/-- C2 witness: a concrete well-formed persisted state on which the
status route provably performs no write. -/
theorem c2_status_pure_witness :
    parsesOrMissing [(settingsFile, "\x7b\x7d")] = true ∧
    (statusRoute "anthropic" [(settingsFile, "\x7b\x7d")]).2 = [(settingsFile, "\x7b\x7d")] :=
  ⟨by decide, c2_status_pure "anthropic" [(settingsFile, "\x7b\x7d")] (by decide)⟩

/-- C7 counterexample: after loading the concrete repairable text, the
file system holds exactly the rewritten canonical file and a backup at
the fixed sibling path settings.json.bak — a path containing no digit
at all, hence no timestamp — refuting the claim that the backup file is
timestamped. -/
theorem c7_counterexample :
    (getSettings [(settingsFile, "\x7b\"a\":1,\x7d")]).2.1 =
      [(settingsFile, "\x7b\"a\":1\x7d\n"), (settingsFile ++ ".bak", "\x7b\"a\":1,\x7d")] ∧
    (settingsFile ++ ".bak").data.all (fun c => !c.isDigit) = true := by decide

/-- C7 (amended): for every persisted text that fails to parse but which
repair makes parseable, load returns the repaired document (with
provider auto-detection applied), a backup at the fixed .bak sibling
path (not timestamped) holds the original bytes, the canonical file is
overwritten with the repaired re-serialized document, and the
diagnostics emitted are warning-level. -/
theorem c7_repair_backup (fs : Fs) (text : String) (s : JVal)
    (hread : fsRead fs settingsFile = some text)
    (hfail : parseJson text = none)
    (hrep : (jsonrepairModel text).bind parseJson = some s) :
    (getSettings fs).1 = autodetect s ∧
    fsRead (getSettings fs).2.1 (settingsFile ++ ".bak") = some text ∧
    fsRead (getSettings fs).2.1 settingsFile = some (stringify s ++ "\n") ∧
    (getSettings fs).2.2 = [.warn, .warn] := by
  have hG : getSettings fs = (autodetect s,
      fsWrite (fsWrite fs (settingsFile ++ ".bak") text) settingsFile (stringify s ++ "\n"),
      [.warn, .warn]) := by
    simp only [getSettings, hread, hfail, hrep]
  rw [hG]
  refine ⟨rfl, ?_, ?_, rfl⟩
  · rw [fsRead_fsWrite_ne _ _ _ _ (by decide), fsRead_fsWrite_self]
  · rw [fsRead_fsWrite_self]

/-- C7 witness: the concrete trailing-comma file from the spec example,
loaded to the intended structure with the original bytes backed up. -/
theorem c7_repair_backup_witness :
    (getSettings [(settingsFile, "\x7b\"a\":1,\x7d")]).1 = .jobj [("a", .jnum 1)] ∧
    fsRead (getSettings [(settingsFile, "\x7b\"a\":1,\x7d")]).2.1 (settingsFile ++ ".bak") =
      some "\x7b\"a\":1,\x7d" ∧
    (getSettings [(settingsFile, "\x7b\"a\":1,\x7d")]).2.2 = [.warn, .warn] := by
  obtain ⟨h₁, h₂, _, h₄⟩ :=
    c7_repair_backup [(settingsFile, "\x7b\"a\":1,\x7d")] "\x7b\"a\":1,\x7d"
      (.jobj [("a", .jnum 1)]) rfl rfl rfl
  exact ⟨h₁.trans rfl, h₂, h₄⟩

/-- C8: loading never fails: an unreadable file yields the empty
document with no diagnostic, and a text on which both parsing and
repair fail yields the empty document with an error-level diagnostic,
the file system untouched in both cases. -/
theorem c8_load_never_fails (fs : Fs) :
    (fsRead fs settingsFile = none → getSettings fs = (.jobj [], fs, [])) ∧
    (∀ text, fsRead fs settingsFile = some text → parseJson text = none →
      (jsonrepairModel text).bind parseJson = none →
      getSettings fs = (.jobj [], fs, [.warn, .error])) := by
  constructor
  · intro h; simp [getSettings, h]
  · intro text h hp hr; simp [getSettings, h, hp, hr]

/-- C8 witness: a missing file and a concrete unrepairable text, both
loaded to the empty document without any propagated failure. -/
theorem c8_load_never_fails_witness :
    getSettings [] = (.jobj [], [], []) ∧
    getSettings [(settingsFile, "")] = (.jobj [], [(settingsFile, "")], [.warn, .error]) :=
  ⟨(c8_load_never_fails []).1 rfl,
   (c8_load_never_fails [(settingsFile, "")]).2 "" rfl rfl rfl⟩

/-- Setting models.provider through the assignment reached by the
auto-detection block, given some provider sub-record is truthy. -/
theorem provider_after_set (s : JVal) (k p : String)
    (h : truthyOpt (getPropO (getProp s "models") k) = true) :
    getPropO (getProp (setModelsProvider s p) "models") "provider" = some (.jstr p) := by
  obtain ⟨sf, mf, q, rfl, hm, hq, _⟩ := truthy_sub_inv s "models" k h
  unfold setModelsProvider
  simp [hm, getProp, getPropO, alookup_aset_self]

/-- C9: for every loaded document whose models.provider is not set, the
provider is inferred from the first truthy provider sub-record in the
fixed order openai, opencode, anthropic, and models.provider of the
returned document is set to that match. -/
theorem c9_provider_autodetect (fs : Fs) (text : String) (s : JVal)
    (hread : fsRead fs settingsFile = some text)
    (hparse : parseJson text = some s)
    (hnp : truthyOpt (getPropO (getProp s "models") "provider") = false) :
    (truthyOpt (getPropO (getProp s "models") "openai") = true →
      getPropO (getProp (getSettings fs).1 "models") "provider" = some (.jstr "openai")) ∧
    (truthyOpt (getPropO (getProp s "models") "openai") = false →
      truthyOpt (getPropO (getProp s "models") "opencode") = true →
      getPropO (getProp (getSettings fs).1 "models") "provider" = some (.jstr "opencode")) ∧
    (truthyOpt (getPropO (getProp s "models") "openai") = false →
      truthyOpt (getPropO (getProp s "models") "opencode") = false →
      truthyOpt (getPropO (getProp s "models") "anthropic") = true →
      getPropO (getProp (getSettings fs).1 "models") "provider" = some (.jstr "anthropic")) := by
  have hload : (getSettings fs).1 = autodetect s := by
    simp [getSettings, hread, hparse]
  rw [hload]
  refine ⟨fun h₁ => ?_, fun h₁ h₂ => ?_, fun h₁ h₂ h₃ => ?_⟩
  · rw [autodetect, if_neg (by simp [hnp]), if_pos h₁]
    exact provider_after_set s "openai" "openai" h₁
  · rw [autodetect, if_neg (by simp [hnp]), if_neg (by simp [h₁]), if_pos h₂]
    exact provider_after_set s "opencode" "opencode" h₂
  · rw [autodetect, if_neg (by simp [hnp]), if_neg (by simp [h₁]), if_neg (by simp [h₂]),
      if_pos h₃]
    exact provider_after_set s "anthropic" "anthropic" h₃

/-- C9 witness: the spec example — a file with models.openai.apiKey set
and no models.provider loads with models.provider equal to openai. -/
theorem c9_provider_autodetect_witness :
    getPropO (getProp (getSettings
      [(settingsFile, "\x7b\"models\":\x7b\"openai\":\x7b\"apiKey\":\"x\"\x7d\x7d\x7d")]).1
      "models") "provider" = some (.jstr "openai") :=
  (c9_provider_autodetect
    [(settingsFile, "\x7b\"models\":\x7b\"openai\":\x7b\"apiKey\":\"x\"\x7d\x7d\x7d")]
    "\x7b\"models\":\x7b\"openai\":\x7b\"apiKey\":\"x\"\x7d\x7d\x7d"
    (.jobj [("models", .jobj [("openai", .jobj [("apiKey", .jstr "x")])])])
    rfl rfl rfl).1 rfl

/-- C4: a callback carrying a code and state but whose state is absent
from the registry, or whose entry is bound to another provider, or
whose entry has expired, yields the invalid-session outcome with the
registry and the settings file untouched and no exchange attempted. -/
theorem c4_invalid_session_rejected (tag key : String) (now : Int)
    (ex : String → String → ExchangeResult) (c s : String)
    (store : PkceStore) (fs : Fs) (hc : c ≠ "") (hs : s ≠ "")
    (hbad : alookup store s = none ∨
      ∃ e, alookup store s = some e ∧ (e.provider ≠ tag ∨ e.expiresAt < now)) :
    callback tag key now ex (some c) (some s) none store fs =
      ⟨.invalidSession, store, fs, 0⟩ := by
  obtain hnone | ⟨e, he, hcond⟩ := hbad
  · simp [callback, strTruthy, hc, hs, hnone]
  · simp [callback, strTruthy, hc, hs, he, hcond]

/-- C4 witness: a concrete callback whose state has no registry entry is
rejected without touching anything. -/
theorem c4_invalid_session_rejected_witness :
    callback "claude" "anthropic" 0 (fun _ _ => .netError)
      (some "c") (some "st") none [] [] = ⟨.invalidSession, [], [], 0⟩ :=
  c4_invalid_session_rejected "claude" "anthropic" 0 (fun _ _ => .netError)
    "c" "st" [] [] (by decide) (by decide) (Or.inl rfl)

/-- C6: when the flow reaches the token exchange and the token endpoint
answers with a non-success response, the callback ends in the
exchange-failed outcome carrying the raw error body, exactly one
exchange request was issued (no retry), and the settings file is not
touched. -/
theorem c6_exchange_failure_writes_nothing (tag key : String) (now : Int)
    (ex : String → String → ExchangeResult) (c s body : String)
    (e : PkceEntry) (store : PkceStore) (fs : Fs)
    (hc : c ≠ "") (hs : s ≠ "")
    (he : alookup store s = some e) (hp : e.provider = tag)
    (hexp : ¬ e.expiresAt < now) (hx : ex c e.verifier = .httpError body) :
    callback tag key now ex (some c) (some s) none store fs =
      ⟨.exchangeFailed body, adel store s, fs, 1⟩ := by
  have hcond : ¬(e.provider ≠ tag ∨ e.expiresAt < now) := by simp [hp, hexp]
  simp [callback, strTruthy, hc, hs, he, hcond, hx]

/-- C6 witness: a concrete failing exchange surfaces the body with the
file system unchanged. -/
theorem c6_exchange_failure_writes_nothing_witness :
    callback "claude" "anthropic" 50 (fun _ _ => .httpError "bad grant")
      (some "c") (some "st") none [("st", ⟨"ver", "claude", 100⟩)] [] =
      ⟨.exchangeFailed "bad grant", [], [], 1⟩ :=
  c6_exchange_failure_writes_nothing "claude" "anthropic" 50
    (fun _ _ => .httpError "bad grant") "c" "st" "bad grant"
    ⟨"ver", "claude", 100⟩ [("st", ⟨"ver", "claude", 100⟩)] []
    (by decide) (by decide) rfl rfl (by decide) rfl

/-- C10: a callback carrying a provider-supplied error parameter returns
the failure page with the registry entry not consumed, the settings
file untouched, and no exchange issued; consequently a later callback
presenting the same state with a valid code, before the entry expires,
still completes the exchange. -/
theorem c10_error_param_preserves_session (tag key : String) (now now₂ : Int)
    (ex ex₂ : String → String → ExchangeResult) (code? state? : Option String)
    (err c₂ s tok : String) (rt : Option String) (ei : Option Int)
    (e : PkceEntry) (d : JVal) (store : PkceStore) (fs : Fs)
    (herr : err ≠ "") :
    callback tag key now ex code? state? (some err) store fs =
      ⟨.errorPage err, store, fs, 0⟩ ∧
    (c₂ ≠ "" → s ≠ "" → alookup store s = some e → e.provider = tag →
      ¬ e.expiresAt < now₂ → ex₂ c₂ e.verifier = .ok tok rt ei →
      oauthSaveTransform key now₂ tok rt ei (getSettings fs).1 = .ok d →
      (callback tag key now₂ ex₂ (some c₂) (some s) none store fs).outcome = .connected ∧
      (callback tag key now₂ ex₂ (some c₂) (some s) none store fs).exchangeCount = 1) := by
  constructor
  · simp [callback, strTruthy, herr]
  · intro hc₂ hs he hp hexp hx htr
    have hcond : ¬(e.provider ≠ tag ∨ e.expiresAt < now₂) := by simp [hp, hexp]
    have hmut : mutateSettings (fun s' => oauthSaveTransform key now₂ tok rt ei s') fs =
        (fsWrite (getSettings fs).2.1 settingsFile (stringify d ++ "\n"), false) := by
      simp [mutateSettings, htr]
    constructor <;> simp [callback, strTruthy, hc₂, hs, he, hcond, hx, hmut]

/-- C10 witness: a concrete denied callback leaves its session live and
a concrete retry with the same state completes. -/
theorem c10_error_param_preserves_session_witness :
    callback "claude" "anthropic" 0 (fun _ _ => .netError)
      (some "c") (some "st") (some "access_denied")
      [("st", ⟨"ver", "claude", 100⟩)] [] =
      ⟨.errorPage "access_denied", [("st", ⟨"ver", "claude", 100⟩)], [], 0⟩ ∧
    (callback "claude" "anthropic" 0 (fun _ _ => .ok "T" none (some 3600))
      (some "c") (some "st") none [("st", ⟨"ver", "claude", 100⟩)] []).outcome =
      .connected := by
  have h := c10_error_param_preserves_session "claude" "anthropic" 0 0
    (fun _ _ => .netError) (fun _ _ => .ok "T" none (some 3600))
    (some "c") (some "st") "access_denied" "c" "st" "T" none (some 3600)
    ⟨"ver", "claude", 100⟩
    (.jobj [("models", .jobj [("anthropic", .jobj
      [("oauth_token", .jstr "T"), ("oauth_refresh_token", .jnull),
       ("oauth_expires_at", .jnum 3600000), ("auth_method", .jstr "oauth")])])])
    [("st", ⟨"ver", "claude", 100⟩)] [] (by decide)
  exact ⟨h.1, (h.2 (by decide) (by decide) rfl rfl (by decide) rfl rfl).1⟩

/-- Inversion of a callback that issued an exchange request: the state
parameter was non-empty and the registry entry was deleted before the
exchange — whatever the exchange later returned. -/
theorem callback_exchange_inv (tag key : String) (now : Int)
    (ex : String → String → ExchangeResult) (c s : String)
    (store : PkceStore) (fs : Fs)
    (hex : 1 ≤ (callback tag key now ex (some c) (some s) none store fs).exchangeCount) :
    s ≠ "" ∧ (callback tag key now ex (some c) (some s) none store fs).store = adel store s := by
  by_cases hc : c = ""
  · subst hc; simp [callback, strTruthy] at hex
  · by_cases hs : s = ""
    · subst hs; simp [callback, strTruthy] at hex
    · refine ⟨hs, ?_⟩
      cases hst : alookup store s with
      | none => simp [callback, strTruthy, hc, hs, hst] at hex
      | some entry =>
        by_cases hbad : entry.provider ≠ tag ∨ entry.expiresAt < now
        · simp [callback, strTruthy, hc, hs, hst, hbad] at hex
        · cases hxr : ex c entry.verifier with
          | ok tok rt ei =>
            cases hmr : mutateSettings (fun s' => oauthSaveTransform key now tok rt ei s') fs with
            | mk fs₁ thrw =>
              cases thrw <;> simp [callback, strTruthy, hc, hs, hst, hbad, hxr, hmr]
          | httpError body => simp [callback, strTruthy, hc, hs, hst, hbad, hxr]
          | netError => simp [callback, strTruthy, hc, hs, hst, hbad, hxr]

/-- C3: whenever a callback for some state actually issued the
token-exchange request, the registry entry for that state was deleted
before the request (so it is gone no matter what the exchange
returned), and any second callback presenting the same state is
rejected as an invalid session and issues no second exchange. -/
theorem c3_state_single_use (tag key : String) (now now₂ : Int)
    (ex ex₂ : String → String → ExchangeResult) (c c₂ s : String)
    (store : PkceStore) (fs : Fs) (hc₂ : c₂ ≠ "")
    (hex : 1 ≤ (callback tag key now ex (some c) (some s) none store fs).exchangeCount) :
    alookup (callback tag key now ex (some c) (some s) none store fs).store s = none ∧
    (callback tag key now₂ ex₂ (some c₂) (some s) none
      (callback tag key now ex (some c) (some s) none store fs).store
      (callback tag key now ex (some c) (some s) none store fs).fs).outcome =
      .invalidSession ∧
    (callback tag key now₂ ex₂ (some c₂) (some s) none
      (callback tag key now ex (some c) (some s) none store fs).store
      (callback tag key now ex (some c) (some s) none store fs).fs).exchangeCount = 0 := by
  obtain ⟨hs, hst⟩ := callback_exchange_inv tag key now ex c s store fs hex
  set r := callback tag key now ex (some c) (some s) none store fs with hr
  have hnone : alookup r.store s = none := by
    rw [hst]; exact alookup_adel_self store s
  refine ⟨hnone, ?_, ?_⟩ <;> simp [callback, strTruthy, hs, hc₂, hnone]

/-- C3 witness: a concrete completed callback, after which the same
state is rejected with no second exchange. -/
theorem c3_state_single_use_witness :
    1 ≤ (callback "claude" "anthropic" 50 (fun _ _ => .ok "T" none (some 3600))
      (some "c") (some "st") none [("st", ⟨"ver", "claude", 100⟩)] []).exchangeCount ∧
    alookup (callback "claude" "anthropic" 50 (fun _ _ => .ok "T" none (some 3600))
      (some "c") (some "st") none [("st", ⟨"ver", "claude", 100⟩)] []).store "st" = none ∧
    (callback "claude" "anthropic" 60 (fun _ _ => .ok "T2" none (some 3600))
      (some "c2") (some "st") none
      (callback "claude" "anthropic" 50 (fun _ _ => .ok "T" none (some 3600))
        (some "c") (some "st") none [("st", ⟨"ver", "claude", 100⟩)] []).store
      (callback "claude" "anthropic" 50 (fun _ _ => .ok "T" none (some 3600))
        (some "c") (some "st") none [("st", ⟨"ver", "claude", 100⟩)] []).fs).outcome =
      .invalidSession := by
  have h := c3_state_single_use "claude" "anthropic" 50 60
    (fun _ _ => .ok "T" none (some 3600)) (fun _ _ => .ok "T2" none (some 3600))
    "c" "c2" "st" [("st", ⟨"ver", "claude", 100⟩)] [] (by decide) (by decide)
  exact ⟨by decide, h.1, h.2.1⟩

/-- Inversion of a successful post-exchange persistence: the document
was an object, and the result replaces its models member so that the
provider sub-record is the prior sub-record (or a fresh empty record
when the prior one was absent or falsy) with the four credential fields
written; the prior sub-record's apiKey reading is recorded for the
preservation argument. -/
theorem oauthSaveTransform_inv (key : String) (now : Int) (tok : String)
    (rt : Option String) (ei : Option Int) (s d : JVal)
    (h : oauthSaveTransform key now tok rt ei s = .ok d) :
    ∃ sf mf pf,
      s = .jobj sf ∧
      d = .jobj (aset sf "models" (.jobj (aset mf key (.jobj
        (aset (aset (aset (aset pf "oauth_token" (.jstr tok))
          "oauth_refresh_token" (refreshVal rt))
          "oauth_expires_at" (expiresVal now ei))
          "auth_method" (.jstr "oauth")))))) ∧
      alookup pf "apiKey" = getPropO (getPropO (getProp s "models") key) "apiKey" := by
  cases s with
  | jnull => exact absurd h (by simp [oauthSaveTransform])
  | jbool b => exact absurd h (by simp [oauthSaveTransform])
  | jnum n => exact absurd h (by simp [oauthSaveTransform])
  | jstr t => exact absurd h (by simp [oauthSaveTransform])
  | jarr xs => exact absurd h (by simp [oauthSaveTransform])
  | jobj sf =>
    simp only [oauthSaveTransform] at h
    cases hm : alookup sf "models" with
    | none =>
      simp only [hm, alookup, Except.ok.injEq] at h
      exact ⟨sf, [], [], rfl, h.symm, by simp [getProp, getPropO, hm, alookup]⟩
    | some m =>
      by_cases htm : truthy m = true
      · simp only [hm, htm, if_true] at h
        cases m with
        | jnull => simp [truthy] at htm
        | jbool b => simp at h
        | jnum n => simp at h
        | jstr t => simp at h
        | jarr xs => simp at h
        | jobj mf =>
          cases hq : alookup mf key with
          | none =>
            simp only [hq, Except.ok.injEq] at h
            exact ⟨sf, mf, [], rfl, h.symm, by simp [getProp, getPropO, hm, hq, alookup]⟩
          | some p =>
            by_cases htp : truthy p = true
            · simp only [hq, htp, if_true] at h
              cases p with
              | jnull => simp [truthy] at htp
              | jbool b => simp at h
              | jnum n => simp at h
              | jstr t => simp at h
              | jarr xs => simp at h
              | jobj pf =>
                simp only [Except.ok.injEq] at h
                exact ⟨sf, mf, pf, rfl, h.symm, by simp [getProp, getPropO, hm, hq]⟩
            · rw [Bool.not_eq_true] at htp
              simp [hq, htp] at h
              obtain rfl := h
              refine ⟨sf, mf, [], rfl, rfl, ?_⟩
              cases p with
              | jobj pf => simp [truthy] at htp
              | jarr xs => simp [truthy] at htp
              | jnull => simp [getProp, getPropO, hm, hq, alookup]
              | jbool b => simp [getProp, getPropO, hm, hq, alookup]
              | jnum n => simp [getProp, getPropO, hm, hq, alookup]
              | jstr t => simp [getProp, getPropO, hm, hq, alookup]
      · rw [Bool.not_eq_true] at htm
        simp [hm, htm, alookup] at h
        obtain rfl := h
        refine ⟨sf, [], [], rfl, rfl, ?_⟩
        cases m with
        | jobj mf => simp [truthy] at htm
        | jarr xs => simp [truthy] at htm
        | jnull => simp [getProp, getPropO, hm, alookup]
        | jbool b => simp [getProp, getPropO, hm, alookup]
        | jnum n => simp [getProp, getPropO, hm, alookup]
        | jstr t => simp [getProp, getPropO, hm, alookup]

/-- C5 counterexample: a successful exchange reporting expires_in = 0
stores oauth_expires_at = null, not now + 0 * 1000, refuting the claim
that every reported lifetime E is stored as now + E * 1000 (the source
guards the computation with JavaScript truthiness, under which 0 is
falsy). -/
theorem c5_counterexample :
    oauthSaveTransform "anthropic" 1000 "T" none (some 0) (.jobj []) =
      .ok (.jobj [("models", .jobj [("anthropic", .jobj
        [("oauth_token", .jstr "T"), ("oauth_refresh_token", .jnull),
         ("oauth_expires_at", .jnull), ("auth_method", .jstr "oauth")])])]) ∧
    getPropO (getPropO (getProp (JVal.jobj [("models", .jobj [("anthropic", .jobj
        [("oauth_token", .jstr "T"), ("oauth_refresh_token", .jnull),
         ("oauth_expires_at", .jnull), ("auth_method", .jstr "oauth")])])]) "models")
      "anthropic") "oauth_expires_at" = some .jnull ∧
    JVal.jnull ≠ .jnum (1000 + 0 * 1000) :=
  ⟨rfl, rfl, fun hcon => nomatch hcon⟩

/-- C5 (amended): whenever the post-exchange write succeeds with a
non-empty access token, the provider sub-record afterwards holds
oauth_token = T, oauth_refresh_token = R or null when absent,
oauth_expires_at = now + E * 1000 for a present non-zero E and null
when E is absent or zero, and auth_method = "oauth"; any pre-existing
apiKey reading of that sub-record is unchanged, and the status derived
from the resulting document is connected with method "oauth". -/
theorem c5_exchange_success_persists (key : String) (now : Int) (tok : String)
    (rt : Option String) (ei : Option Int) (s d : JVal) (htok : tok ≠ "")
    (h : oauthSaveTransform key now tok rt ei s = .ok d) :
    getPropO (getPropO (getProp d "models") key) "oauth_token" = some (.jstr tok) ∧
    getPropO (getPropO (getProp d "models") key) "oauth_refresh_token" =
      some (refreshVal rt) ∧
    (∀ n, ei = some n → n ≠ 0 →
      getPropO (getPropO (getProp d "models") key) "oauth_expires_at" =
        some (.jnum (now + n * 1000))) ∧
    (ei = none ∨ ei = some 0 →
      getPropO (getPropO (getProp d "models") key) "oauth_expires_at" = some .jnull) ∧
    getPropO (getPropO (getProp d "models") key) "auth_method" = some (.jstr "oauth") ∧
    getPropO (getPropO (getProp d "models") key) "apiKey" =
      getPropO (getPropO (getProp s "models") key) "apiKey" ∧
    (statusOf d key).connected = true ∧
    (statusOf d key).method = some (.jstr "oauth") := by
  obtain ⟨sf, mf, pf, rfl, rfl, hapi⟩ := oauthSaveTransform_inv key now tok rt ei s d h
  set pf₄ := aset (aset (aset (aset pf "oauth_token" (.jstr tok))
    "oauth_refresh_token" (refreshVal rt))
    "oauth_expires_at" (expiresVal now ei))
    "auth_method" (.jstr "oauth") with hpf₄
  have hsub : ∀ f : String,
      getPropO (getPropO (getProp (JVal.jobj (aset sf "models"
        (.jobj (aset mf key (.jobj pf₄))))) "models") key) f = alookup pf₄ f := by
    intro f
    simp [getProp, getPropO, alookup_aset_self]
  have f₁ : alookup pf₄ "oauth_token" = some (.jstr tok) := by
    rw [hpf₄]
    rw [alookup_aset_ne _ _ _ _ (by decide), alookup_aset_ne _ _ _ _ (by decide),
      alookup_aset_ne _ _ _ _ (by decide), alookup_aset_self]
  have f₂ : alookup pf₄ "oauth_refresh_token" = some (refreshVal rt) := by
    rw [hpf₄]
    rw [alookup_aset_ne _ _ _ _ (by decide), alookup_aset_ne _ _ _ _ (by decide),
      alookup_aset_self]
  have f₃ : alookup pf₄ "oauth_expires_at" = some (expiresVal now ei) := by
    rw [hpf₄]
    rw [alookup_aset_ne _ _ _ _ (by decide), alookup_aset_self]
  have f₄ : alookup pf₄ "auth_method" = some (.jstr "oauth") := by
    rw [hpf₄, alookup_aset_self]
  have f₅ : alookup pf₄ "apiKey" = alookup pf "apiKey" := by
    rw [hpf₄]
    rw [alookup_aset_ne _ _ _ _ (by decide), alookup_aset_ne _ _ _ _ (by decide),
      alookup_aset_ne _ _ _ _ (by decide), alookup_aset_ne _ _ _ _ (by decide)]
  refine ⟨?_, ?_, ?_, ?_, ?_, ?_, ?_, ?_⟩
  · rw [hsub, f₁]
  · rw [hsub, f₂]
  · intro n hn hn0
    rw [hsub, f₃, hn]
    simp [expiresVal, hn0]
  · intro hcase
    rw [hsub, f₃]
    obtain rfl | rfl := hcase <;> simp [expiresVal]
  · rw [hsub, f₄]
  · rw [hsub, f₅, hapi]
  · simp [statusOf, hsub, f₁, truthyOpt, truthy, htok]
  · simp [statusOf, hsub, f₄, truthyOpt, truthy]

/-- C5 witness: a concrete successful exchange over a document with a
pre-existing apiKey, persisting the full credential set and keeping the
apiKey. -/
theorem c5_exchange_success_persists_witness :
    getPropO (getPropO (getProp (JVal.jobj [("models", .jobj [("anthropic", .jobj
        [("apiKey", .jstr "k"), ("oauth_token", .jstr "T"),
         ("oauth_refresh_token", .jnull), ("oauth_expires_at", .jnum 3601000),
         ("auth_method", .jstr "oauth")])])]) "models") "anthropic")
      "oauth_token" = some (.jstr "T") ∧
    getPropO (getPropO (getProp (JVal.jobj [("models", .jobj [("anthropic", .jobj
        [("apiKey", .jstr "k"), ("oauth_token", .jstr "T"),
         ("oauth_refresh_token", .jnull), ("oauth_expires_at", .jnum 3601000),
         ("auth_method", .jstr "oauth")])])]) "models") "anthropic")
      "oauth_expires_at" = some (.jnum 3601000) ∧
    getPropO (getPropO (getProp (JVal.jobj [("models", .jobj [("anthropic", .jobj
        [("apiKey", .jstr "k"), ("oauth_token", .jstr "T"),
         ("oauth_refresh_token", .jnull), ("oauth_expires_at", .jnum 3601000),
         ("auth_method", .jstr "oauth")])])]) "models") "anthropic")
      "apiKey" = some (.jstr "k") ∧
    (statusOf (.jobj [("models", .jobj [("anthropic", .jobj
        [("apiKey", .jstr "k"), ("oauth_token", .jstr "T"),
         ("oauth_refresh_token", .jnull), ("oauth_expires_at", .jnum 3601000),
         ("auth_method", .jstr "oauth")])])]) "anthropic").connected = true ∧
    (statusOf (.jobj [("models", .jobj [("anthropic", .jobj
        [("apiKey", .jstr "k"), ("oauth_token", .jstr "T"),
         ("oauth_refresh_token", .jnull), ("oauth_expires_at", .jnum 3601000),
         ("auth_method", .jstr "oauth")])])]) "anthropic").method =
      some (.jstr "oauth") := by
  have h := c5_exchange_success_persists "anthropic" 1000 "T" none (some 3600)
    (.jobj [("models", .jobj [("anthropic", .jobj [("apiKey", .jstr "k")])])])
    (.jobj [("models", .jobj [("anthropic", .jobj
      [("apiKey", .jstr "k"), ("oauth_token", .jstr "T"),
       ("oauth_refresh_token", .jnull), ("oauth_expires_at", .jnum 3601000),
       ("auth_method", .jstr "oauth")])])])
    (by decide) rfl
  exact ⟨h.1, by
      have := h.2.2.1 3600 rfl (by decide)
      simpa using this,
    h.2.2.2.2.2.1.trans rfl, h.2.2.2.2.2.2.1, h.2.2.2.2.2.2.2⟩

end Tinyclaw
